import Mathlib

/-!
Verification development for the devscope context-gathering pipeline.

The TypeScript sources are shallowly embedded here:
  * `src/core/ranker.ts` (second, problem-type-aware revision): `ResultRanker`
  * `src/tools/gatherContext.ts`: `QueryAnalyzer`, `ResultAggregator`,
    `gatherDeveloperContext`
  * `src/types/index.ts`: the data model
  * `src/utils/errorHandler.ts`: `withFallback` (its error-swallowing is folded
    into the orchestrator model)

Conventions of the embedding:
  * JS `number` is modelled as `ℚ` (the scoring code only uses exact decimal
    literals, `/ 2`, `* 0.05` and comparisons); timestamps (`Date.getTime()`,
    `Date.now()`) are modelled as `Int` milliseconds, with "now" a parameter.
  * JS strings are Lean `String`s; `toLowerCase`, `includes`, `split(/\s+/)`,
    `trim` are reimplemented below on the character list (ASCII whitespace).
  * The regular-expression engine used by the query analyzer is an external
    platform facility; pattern matching is abstracted as a parameter
    (`Matcher` for `String.match` / `RegExp.test`, `ExecEngine` for the
    stateful `RegExp.exec` loop over `versionPatterns`, whose `lastIndex` is
    explicit state here).
  * `config/filters.json` is data loaded at runtime and is not part of the
    sources; the ranker is parameterized by its contents (`Filters`).
  * JS `Array.prototype.sort` is stable (ES2019) and the comparator
    `(a, b) => b.finalScore - a.finalScore` is a total preorder, so its output
    is the unique stable descending arrangement; it is modelled by
    `List.insertionSort`, which is stable and sorts w.r.t. the same preorder.
-/

/-! Part 1: JS string primitives -/

/-- ASCII whitespace, the fragment of the JS `\s` class exercised here. -/
def isWsChar (c : Char) : Bool :=
  c = ' ' || c = '\t' || c = '\n' || c = '\r' || c = '\x0b' || c = '\x0c'

/-- True when the first list is an initial run of the second. -/
def leadsWith : List Char → List Char → Bool
  | [], _ => true
  | _ :: _, [] => false
  | a :: as, b :: bs => a == b && leadsWith as bs

/-- Occurrence of `need` anywhere in `hay` (JS `String.prototype.includes`);
an empty needle is found everywhere. -/
def containsSub (need : List Char) : List Char → Bool
  | [] => leadsWith need []
  | c :: t => leadsWith need (c :: t) || containsSub need t

/-- JS `hay.includes(need)`. -/
def strIncludes (hay need : String) : Bool :=
  containsSub need.toList hay.toList

/-- JS `String.prototype.toLowerCase` (ASCII fragment). -/
def lowerStr (s : String) : String :=
  ⟨s.toList.map Char.toLower⟩

/-- JS `String.prototype.trim` (ASCII whitespace). -/
def jsTrim (s : String) : String :=
  ⟨((s.toList.dropWhile isWsChar).reverse.dropWhile isWsChar).reverse⟩

/-- JS `s.substring(0, n)` (code points in place of UTF-16 units). -/
def jsTake (n : Nat) (s : String) : String :=
  ⟨s.toList.take n⟩

/-- JS `s.split(/\s+/)` on a character list: maximal whitespace runs are
separators, and a leading or trailing run contributes an empty piece, exactly
as in JS (`" a "` splits to `["", "a", ""]`). -/
def jsSplitWsList : List Char → List (List Char)
  | [] => [[]]
  | c :: rest =>
    let r := jsSplitWsList rest
    if isWsChar c then
      match rest with
      | d :: _ => if isWsChar d then r else [] :: r
      | [] => [] :: r
    else
      match r with
      | s :: ss => (c :: s) :: ss
      | [] => [[c]]

/-- JS `s.split(/\s+/)` on strings. -/
def jsSplitWs (s : String) : List String :=
  (jsSplitWsList s.toList).map fun cs => ⟨cs⟩

/-- JS `s.split("\n\n")` (leftmost, non-overlapping). -/
def splitDoubleNl : List Char → List (List Char)
  | '\n' :: '\n' :: rest => [] :: splitDoubleNl rest
  | c :: rest =>
    match splitDoubleNl rest with
    | s :: ss => (c :: s) :: ss
    | [] => [[c]]
  | [] => [[]]

/-- First-occurrence deduplication, the order produced by `[...new Set(xs)]`. -/
def dedupFirst (xs : List String) : List String :=
  xs.foldl (fun acc x => if acc.contains x then acc else acc ++ [x]) []

/-- JS `Math.round`: round half toward positive infinity. -/
def jsRound (x : ℚ) : ℤ :=
  Rat.floor (x + 1/2)

/-! Part 2: data model (src/types/index.ts) -/

/-- The enumerated source identifiers. -/
inductive Source where
  | stackoverflow
  | github
  | reddit
deriving DecidableEq, Repr

/-- The literal string a `Source` value denotes in TS. -/
def sourceId : Source → String
  | .stackoverflow => "stackoverflow"
  | .github => "github"
  | .reddit => "reddit"

structure CodeSnippet where
  language : String
  code : String
deriving DecidableEq, Repr

/-- Record `NormalizedResult`. `isAccepted?: boolean` is used only through its JS
truthiness, where `undefined` and `false` coincide, so it is a `Bool`;
`voteCount?: number` is `Option ℚ` (the code reads it as `voteCount || 0`);
`version?: string` keeps its JS truthiness (absent or empty is falsy). -/
structure NormalizedResult where
  title : String
  url : String
  source : Source
  author : String
  createdAt : Int
  updatedAt : Option Int
  score : ℚ
  content : String
  codeSnippets : List CodeSnippet
  tags : List String
  version : Option String
  isAccepted : Bool
  voteCount : Option ℚ
deriving DecidableEq, Repr

/-- JS truthiness of the optional `version` field: present and non-empty. -/
def versionTruthy : Option String → Bool
  | none => false
  | some s => s ≠ ""

/-- Record `RankedResult extends NormalizedResult` with the four score fields; the TS
spread `{...result, relevanceScore, ...}` keeps every original field, which is
the `base` component here. -/
structure RankedResult where
  base : NormalizedResult
  relevanceScore : ℚ
  recencyScore : ℚ
  communityScore : ℚ
  finalScore : ℚ
deriving DecidableEq, Repr

/-- One `problemTypeWeights` entry of `config/filters.json`. -/
structure Weights where
  relevance : ℚ
  recency : ℚ
  community : ℚ
deriving DecidableEq, Repr

/-- The problem categories of `queryAnalyzer.ts` (`ProblemType`). -/
inductive ProblemType where
  | configuration
  | bug
  | performance
  | compatibility
  | practice
  | unknown
deriving DecidableEq, Repr

/-- The contents of `config/filters.json` as read by the ranker: both tables
are partial maps, `none` standing for an absent key.  A `sourceWeights` entry
is its raw number; the code checks its JS truthiness (non-zero) before use. -/
structure Filters where
  problemTypeWeights : ProblemType → Option Weights
  sourceWeights : ProblemType → Source → Option ℚ

/-! Part 3: the ranker (src/core/ranker.ts, problem-type-aware revision).
The constructor lowercases the query once; every method below takes the
lowercased query `q` where the TS method reads `this.query`. -/

/-- Method `calculateRelevanceScore`: per query word +10 for a title hit and
+2 for a content hit, +20 for the whole query in the title, +5 per tag that is
a substring of the query or vice versa; capped at 100. -/
def calculateRelevanceScore (q : String) (result : NormalizedResult) : ℚ :=
  let queryWords := jsSplitWs q
  let titleLower := lowerStr result.title
  let contentLower := lowerStr result.content
  let score : ℚ :=
    (queryWords.map fun word =>
      (if strIncludes titleLower word then (10 : ℚ) else 0) +
      (if strIncludes contentLower word then (2 : ℚ) else 0)).sum
  let score := score + (if strIncludes titleLower q then (20 : ℚ) else 0)
  let score := score +
    (result.tags.map fun tag =>
      if strIncludes q (lowerStr tag) || strIncludes (lowerStr tag) q
      then (5 : ℚ) else 0).sum
  min score 100

/-- Method `calculateRecencyScore`: step function of days since the later of
creation and update, with category-aware breakpoints.  The TS
`result.updatedAt?.getTime() || created` falls back to `created` both when
`updatedAt` is absent and when its timestamp is the falsy `0`. -/
def calculateRecencyScore (problemType : Option ProblemType) (now : Int)
    (result : NormalizedResult) : ℚ :=
  let created := result.createdAt
  let updated :=
    match result.updatedAt with
    | none => created
    | some u => if u = 0 then created else u
  let relevantDate := max created updated
  let daysSince : ℚ := ((now - relevantDate : Int) : ℚ) / (1000 * 60 * 60 * 24)
  if problemType = some .bug || problemType = some .compatibility then
    if daysSince < 7 then 100
    else if daysSince < 30 then 85
    else if daysSince < 90 then 60
    else if daysSince < 180 then 30
    else if daysSince < 365 then 15
    else 5
  else if problemType = some .practice then
    if daysSince < 30 then 100
    else if daysSince < 180 then 90
    else if daysSince < 365 then 80
    else if daysSince < 730 then 70
    else if daysSince < 1095 then 50
    else 30
  else
    if daysSince < 7 then 100
    else if daysSince < 30 then 80
    else if daysSince < 90 then 60
    else if daysSince < 365 then 40
    else if daysSince < 730 then 20
    else 10

/-- Method `calculateCommunityScore`:
`min(voteCount || 0, 50) + min(score / 2, 25) + (isAccepted ? 25 : 0)`,
then capped at 100. -/
def calculateCommunityScore (result : NormalizedResult) : ℚ :=
  let score : ℚ := min (result.voteCount.getD 0) 50
  let score := score + min (result.score / 2) 25
  let score := score + (if result.isAccepted then (25 : ℚ) else 0)
  min score 100

/-- Method `calculateSourceScore`: a configured per-category source weight
(used only when present and non-zero, the JS truthiness test) scaled by 100,
else the legacy heuristic on the lowercased query. -/
def calculateSourceScore (fil : Filters) (q : String) (problemType : Option ProblemType)
    (result : NormalizedResult) : ℚ :=
  let isBugQuery :=
    strIncludes q "bug" || strIncludes q "issue" || strIncludes q "error" ||
    strIncludes q "fix" || strIncludes q "problem"
  let isHowToQuery :=
    strIncludes q "how to" || strIncludes q "how do" || strIncludes q "what is" ||
    strIncludes q "explain"
  let legacy : ℚ :=
    if result.source = .stackoverflow && isHowToQuery then 100
    else if result.source = .github && isBugQuery then 100
    else 50
  match problemType with
  | some t =>
    match fil.sourceWeights t result.source with
    | some w => if w ≠ 0 then w * 100 else legacy
    | none => legacy
  | none => legacy

/-- Method `getScoreWeights`: the `problemTypeWeights` entry for the current
category when the category is set and the entry exists, else the default
`{relevance: 0.35, recency: 0.25, community: 0.20}`. -/
def getScoreWeights (fil : Filters) (problemType : Option ProblemType) : Weights :=
  match problemType with
  | none => ⟨35/100, 25/100, 20/100⟩
  | some t =>
    match fil.problemTypeWeights t with
    | some w => w
    | none => ⟨35/100, 25/100, 20/100⟩

/-- Method `getAcceptedBonus`: 0 when not accepted, else 20 for
configuration and best-practice, 15 for bug reports, 12 otherwise. -/
def getAcceptedBonus (problemType : Option ProblemType) (result : NormalizedResult) : ℚ :=
  if !result.isAccepted then 0
  else if problemType = some .configuration || problemType = some .practice then 20
  else if problemType = some .bug then 15
  else 12

/-- Body of the `rankResults` map: compute the four component scores and the
weighted final score, and return the spread `{...result, relevanceScore,
recencyScore, communityScore, finalScore}`. -/
def scoreResult (fil : Filters) (q : String) (problemType : Option ProblemType)
    (now : Int) (result : NormalizedResult) : RankedResult :=
  let relevanceScore := calculateRelevanceScore q result
  let recencyScore := calculateRecencyScore problemType now result
  let communityScore := calculateCommunityScore result
  let sourceScore := calculateSourceScore fil q problemType result
  let weights := getScoreWeights fil problemType
  let acceptedBonus := getAcceptedBonus problemType result
  let finalScore :=
    relevanceScore * weights.relevance +
    recencyScore * weights.recency +
    communityScore * weights.community +
    acceptedBonus +
    sourceScore * (5/100)
  { base := result
    relevanceScore := relevanceScore
    recencyScore := recencyScore
    communityScore := communityScore
    finalScore := finalScore }

/-- The descending-final-score preorder of the comparator
`(a, b) => b.finalScore - a.finalScore`: `a` may precede `b` when
`a.finalScore ≥ b.finalScore`. -/
def finalGe (a b : RankedResult) : Prop :=
  b.finalScore ≤ a.finalScore

instance : DecidableRel finalGe := fun a b =>
  inferInstanceAs (Decidable (b.finalScore ≤ a.finalScore))

instance : IsTotal RankedResult finalGe :=
  ⟨fun a b => le_total b.finalScore a.finalScore⟩

instance : IsTrans RankedResult finalGe :=
  ⟨fun _ _ _ h1 h2 => le_trans h2 h1⟩

/-- Method `rankResults`: map each input through `scoreResult`, then the
stable sort with comparator `(a, b) => b.finalScore - a.finalScore`. -/
def rankResults (fil : Filters) (q : String) (problemType : Option ProblemType)
    (now : Int) (results : List NormalizedResult) : List RankedResult :=
  List.insertionSort finalGe (results.map (scoreResult fil q problemType now))

/-! Part 4: the query analyzer (src/core/queryAnalyzer.ts, embedded in
gatherContext.ts's source dump).  A `Matcher` abstracts the platform regex
engine's `query.match(pattern)`: for a pattern source text and a query it
returns the list of matched substrings (empty when JS returns `null`);
`RegExp.test` is its non-emptiness.  The pattern tables below carry the
pattern source texts verbatim. -/

abbrev Matcher : Type := String → String → List String

/-- Test of a freshly created regex literal, `pattern.test(query)`. -/
def regexTest (m : Matcher) (pat query : String) : Bool :=
  m pat query ≠ []

/-- Enumeration order of the `problemTypePatterns` map (its insertion order,
which JS `Map` preserves for both lookup and iteration). -/
def problemTypeOrder : List ProblemType :=
  [.configuration, .bug, .performance, .compatibility, .practice]

/-- The per-category signal pattern lists of `initializePatterns`. -/
def problemTypePatterns : ProblemType → List String
  | .configuration =>
    ["config", "setup", "install", "configure", "settings", "\\.config\\.",
     "environment"]
  | .bug =>
    ["bug", "error", "crash", "exception", "broken", "not\\s+working",
     "fails?", "infinite\\s+loop", "hanging", "freeze", "stuck"]
  | .performance =>
    ["performance", "slow", "speed", "memory\\s+leak", "optimization", "lag",
     "benchmark"]
  | .compatibility =>
    ["compatibility", "version", "upgrade", "migration", "deprecated",
     "breaking\\s+change"]
  | .practice =>
    ["how\\s+to", "best\\s+practice", "recommended", "should\\s+i",
     "proper\\s+way", "correct\\s+way"]
  | .unknown => []

/-- Count of matches a pattern produces on the query,
`query.match(pattern).length` with `null` counting as zero. -/
def matchCount (m : Matcher) (pat query : String) : Nat :=
  (m pat query).length

/-- Base score of one category: matches summed across its pattern list. -/
def baseProblemScore (m : Matcher) (query : String) (t : ProblemType) : Nat :=
  ((problemTypePatterns t).map fun p => matchCount m p query).sum

/-- Scores after the two priority boosts of `classifyProblemType`: +2 on
performance when it has any base score and the broader
memory/speed/optimization pattern tests true, +1 on configuration when it has
any base score and the broader setup/install/environment pattern tests true. -/
def boostedProblemScore (m : Matcher) (query : String) (t : ProblemType) : Nat :=
  let s := baseProblemScore m query t
  match t with
  | .performance =>
    if baseProblemScore m query .performance > 0 &&
        regexTest m "memory|leak|performance|slow|speed|optimization" query
    then s + 2 else s
  | .configuration =>
    if baseProblemScore m query .configuration > 0 &&
        regexTest m "setup|configure|config|install|environment" query
    then s + 1 else s
  | _ => s

/-- The selection loop of `classifyProblemType`: walk the map in insertion
order keeping the first strictly greater score, starting from
`(UNKNOWN, 0)`, and fall back to `UNKNOWN` when the best score is 0. -/
def selectBestType (s : ProblemType → Nat) : ProblemType :=
  let r := problemTypeOrder.foldl
    (fun acc t => if s t > acc.2 then (t, s t) else acc)
    (ProblemType.unknown, 0)
  if r.2 > 0 then r.1 else .unknown

/-- Method `classifyProblemType`. -/
def classifyProblemType (m : Matcher) (query : String) : ProblemType :=
  selectBestType (boostedProblemScore m query)

/-- Greatest boosted score across the enumeration (for the spec-side
restatement of the classifier). -/
def highestProblemScore (s : ProblemType → Nat) : Nat :=
  (problemTypeOrder.map s).foldr Nat.max 0

/-- Classifier as the claim words it: the category with the strictly highest
boosted score, `unknown` when the highest score is 0, ties resolving to the
category first in enumeration order (so the winner is the first category in
enumeration order whose score equals the highest score). -/
def classifyProblemTypeSpec (m : Matcher) (query : String) : ProblemType :=
  let s := boostedProblemScore m query
  let best := highestProblemScore s
  if best = 0 then .unknown
  else if s .configuration = best then .configuration
  else if s .bug = best then .bug
  else if s .performance = best then .performance
  else if s .compatibility = best then .compatibility
  else .practice

/-- The `technologyPatterns` map in insertion order. -/
def technologyPatterns : List (String × List String) :=
  [("react", ["react", "reactjs", "jsx", "tsx"]),
   ("next.js", ["next.js", "nextjs", "next", "vercel"]),
   ("vue", ["vue", "vuejs", "vue.js"]),
   ("angular", ["angular", "angularjs"]),
   ("node.js", ["node.js", "nodejs", "node"]),
   ("typescript", ["typescript", "ts"]),
   ("javascript", ["javascript", "js"]),
   ("vite", ["vite", "vitejs"]),
   ("webpack", ["webpack"]),
   ("docker", ["docker", "dockerfile"]),
   ("prisma", ["prisma"]),
   ("mongodb", ["mongodb", "mongo"]),
   ("postgresql", ["postgresql", "postgres"]),
   ("redis", ["redis"]),
   ("aws", ["aws", "amazon web services"]),
   ("kubernetes", ["kubernetes", "k8s"]),
   ("python", ["python"]),
   ("django", ["django"]),
   ("flask", ["flask"]),
   ("git", ["git", "github", "gitlab"])]

/-- Method `extractTechnologies`: a technology is detected when any alias is
a substring of the lowercased query; each canonical name appears once, in map
order (`break` plus the final `Set` spread). -/
def extractTechnologies (query : String) : List String :=
  let queryLower := lowerStr query
  dedupFirst ((technologyPatterns.filter fun p =>
    p.2.any fun al => strIncludes queryLower (lowerStr al)).map (·.1))

/-- Simulation of `versionPatterns[i].exec(query)` from a given `lastIndex`:
`none` for a failed match (JS then resets `lastIndex` to 0), or
`some (matchStart, matchEnd, pushed)` where `pushed` models
`match[1] || match[0]` and `matchEnd` becomes the new `lastIndex`. -/
structure ExecEngine where
  findFrom : Nat → String → Nat → Option (Nat × Nat × String)

/-- Soundness of an engine on a query: matches start no earlier than the
search position, are non-empty (every `versionPatterns` entry requires at
least one digit), and end within the string. -/
def ValidEngine (e : ExecEngine) (q : String) : Prop :=
  ∀ i li s t cap, e.findFrom i q li = some (s, t, cap) →
    li ≤ s ∧ s < t ∧ t ≤ q.length

/-- The `while ((match = pattern.exec(query)) !== null)` loop of
`extractVersions`, with the regex's `lastIndex` as explicit state.  Fuel
bounds the iteration; `q.length + 1` is enough for any valid engine since the
`lastIndex` strictly increases while staying within the string. -/
def execLoop (e : ExecEngine) (i : Nat) (q : String) :
    Nat → Nat → List String → List String × Nat
  | 0, li, acc => (acc.reverse, li)
  | fuel + 1, li, acc =>
    match e.findFrom i q li with
    | none => (acc.reverse, 0)
    | some (_, t, cap) => execLoop e i q fuel t (cap :: acc)

/-- Number of entries of `this.versionPatterns`. -/
def numVersionPatterns : Nat := 5

/-- Run every version pattern in order, threading each one's `lastIndex`. -/
def runVersionPatterns (e : ExecEngine) (q : String) :
    List Nat → Nat → List String × List Nat
  | [], _ => ([], [])
  | li :: rest, i =>
    let r1 := execLoop e i q (q.length + 1) li []
    let r2 := runVersionPatterns e q rest (i + 1)
    (r1.1 ++ r2.1, r1.2 :: r2.2)

/-- Method `extractVersions`: all matches across the version patterns,
deduplicated by first occurrence; the returned state is the tuple of
`lastIndex` values the patterns are left with. -/
def extractVersions (e : ExecEngine) (st : List Nat) (q : String) :
    List String × List Nat :=
  let r := runVersionPatterns e q st 0
  (dedupFirst r.1, r.2)

/-- The fresh (constructor-time) `lastIndex` state: all zeros. -/
def initVersionState : List Nat := List.replicate numVersionPatterns 0

/-- The `errorPatterns` list of `initializePatterns`. -/
def errorPatternList : List String :=
  ["error", "exception", "failed", "crash", "memory\\s+leak",
   "not\\s+working", "broken", "issue", "problem", "bug"]

/-- Method `extractErrorPatterns`: every match of every error pattern, in
pattern order, deduplicated by first occurrence. -/
def extractErrorPatterns (m : Matcher) (query : String) : List String :=
  dedupFirst ((errorPatternList.map fun p => m p query).flatten)

/-- The `specificity` union type. -/
inductive Specificity where
  | generic
  | specific
  | edgeCase
deriving DecidableEq, Repr

/-- Method `assessSpecificity`, with the word count taken from the raw
query's whitespace split. -/
def assessSpecificity (query : String) (technologies versions : List String) :
    Specificity :=
  let wordCount := (jsSplitWs query).length
  let techCount := technologies.length
  let versionCount := versions.length
  if wordCount < 4 && techCount ≤ 1 then .generic
  else if techCount ≥ 2 || versionCount ≥ 1 || wordCount > 8 then .edgeCase
  else .specific

structure GitHubSearchStrategy where
  query : String
  excludePatterns : List String
  prioritizeTypes : List String
  qualityThreshold : Nat
deriving DecidableEq, Repr

structure StackOverflowSearchStrategy where
  query : String
  tags : List String
  requireAnswered : Bool
  sortBy : String
deriving DecidableEq, Repr

structure RedditSearchStrategy where
  query : String
  subreddits : List String
  excludeFlairs : List String
  minEngagement : Nat
deriving DecidableEq, Repr

structure SearchStrategies where
  github : GitHubSearchStrategy
  stackoverflow : StackOverflowSearchStrategy
  reddit : RedditSearchStrategy
deriving DecidableEq, Repr

/-- The `repoMap` of `getRepositoryHints`. -/
def repoMap : String → Option String
  | "react" => some "repo:facebook/react"
  | "next.js" => some "repo:vercel/next.js"
  | "vite" => some "repo:vitejs/vite"
  | "vue" => some "repo:vuejs/vue"
  | "angular" => some "repo:angular/angular"
  | "typescript" => some "repo:microsoft/TypeScript"
  | "prisma" => some "repo:prisma/prisma"
  | _ => none

/-- Method `getRepositoryHints` (`map` then `filter(Boolean)`). -/
def getRepositoryHints (technologies : List String) : List String :=
  technologies.filterMap repoMap

/-- Method `generateGitHubStrategy`.  The `_versions` argument of the TS
method is unused and omitted. -/
def generateGitHubStrategy (query : String) (problemType : ProblemType)
    (technologies : List String) : GitHubSearchStrategy :=
  let exclude0 := ["-author:dependabot", "-author:renovate[bot]",
    "-author:github-actions[bot]", "-label:dependencies"]
  let prioritize0 := ["type:issue"]
  let prioritizeTypes :=
    if problemType = .bug then prioritize0 ++ ["label:bug"]
    else if problemType = .configuration then
      prioritize0 ++ ["label:question", "label:help"]
    else prioritize0
  let excludePatterns :=
    if problemType = .bug then exclude0 ++ ["-label:enhancement"] else exclude0
  let searchQuery :=
    if technologies ≠ [] then
      let repoHints := getRepositoryHints technologies
      if repoHints ≠ [] then
        query ++ " " ++ String.intercalate " OR " repoHints
      else query
    else query
  { query := searchQuery
    excludePatterns := excludePatterns
    prioritizeTypes := prioritizeTypes
    qualityThreshold := if problemType = .bug then 2 else 1 }

/-- Method `generateStackOverflowStrategy`. -/
def generateStackOverflowStrategy (query : String) (problemType : ProblemType)
    (technologies : List String) : StackOverflowSearchStrategy :=
  { query := query
    tags := technologies.filter fun tech =>
      ["javascript", "typescript", "react", "node.js", "python",
       "java"].contains tech
    requireAnswered := problemType = .configuration || problemType = .practice
    sortBy := if problemType = .bug then "activity" else "relevance" }

/-- The `techSubreddits` record of `getRelevantSubreddits`. -/
def techSubreddits : String → Option (List String)
  | "react" => some ["reactjs", "reactnative"]
  | "next.js" => some ["nextjs", "reactjs"]
  | "vue" => some ["vuejs"]
  | "angular" => some ["angular", "angularjs"]
  | "node.js" => some ["node", "nodejs"]
  | "javascript" => some ["javascript", "webdev"]
  | "typescript" => some ["typescript"]
  | "python" => some ["python", "learnpython"]
  | "docker" => some ["docker", "devops"]
  | _ => none

/-- Insertion into a JS `Set`, modelled on a list keeping insertion order. -/
def addUnique (acc : List String) (x : String) : List String :=
  if acc.contains x then acc else acc ++ [x]

/-- Method `getRelevantSubreddits`: per-technology subreddits in order, then
general ones by problem type, then the fallback set when still empty, all as
one insertion-ordered `Set`, truncated to 5. -/
def getRelevantSubreddits (technologies : List String)
    (problemType : ProblemType) : List String :=
  let subs := technologies.foldl
    (fun acc tech =>
      match techSubreddits tech with
      | some l => l.foldl addUnique acc
      | none => acc) []
  let subs :=
    if problemType = .bug || problemType = .configuration then
      ["programming", "askprogramming"].foldl addUnique subs
    else subs
  let subs :=
    if problemType = .practice then
      ["codereview", "programming"].foldl addUnique subs
    else subs
  let subs :=
    if subs = [] then
      ["programming", "webdev", "askprogramming"].foldl addUnique subs
    else subs
  subs.take 5

/-- Method `generateRedditStrategy`. -/
def generateRedditStrategy (query : String) (problemType : ProblemType)
    (technologies : List String) : RedditSearchStrategy :=
  let excludeFlairs := ["Showcase", "Career", "Show and Tell",
    "Beginner Question"]
  { query := query
    subreddits := getRelevantSubreddits technologies problemType
    excludeFlairs :=
      if problemType = .practice then excludeFlairs ++ ["Rant"]
      else excludeFlairs
    minEngagement := if problemType = .bug then 5 else 10 }

/-- The `QueryAnalysis` record. -/
structure QueryAnalysis where
  originalQuery : String
  problemType : ProblemType
  technologies : List String
  versions : List String
  errorPatterns : List String
  specificity : Specificity
  searchStrategies : SearchStrategies
deriving DecidableEq, Repr

/-- Method `analyze`.  Everything is a pure function of the query except the
version extraction, whose per-pattern `lastIndex` state is threaded in and
out explicitly (the analyzer object holds the compiled patterns across
calls). -/
def analyze (e : ExecEngine) (m : Matcher) (st : List Nat) (query : String) :
    QueryAnalysis × List Nat :=
  let problemType := classifyProblemType m query
  let technologies := extractTechnologies query
  let ev := extractVersions e st query
  let versions := ev.1
  let errs := extractErrorPatterns m query
  let specificity := assessSpecificity query technologies versions
  ({ originalQuery := query
     problemType := problemType
     technologies := technologies
     versions := versions
     errorPatterns := errs
     specificity := specificity
     searchStrategies :=
      { github := generateGitHubStrategy query problemType technologies
        stackoverflow := generateStackOverflowStrategy query problemType technologies
        reddit := generateRedditStrategy query problemType technologies } },
   ev.2)

/-! Part 5: the aggregator (src/core/aggregator.ts, embedded in
gatherContext.ts's source dump). -/

/-- A `Citation`.  The TS field `createdAt` is `result.createdAt.toISOString()`;
the ISO rendering is platform date formatting, so the raw timestamp is kept
here (no claim inspects the rendered text). -/
structure Citation where
  title : String
  url : String
  source : String
  author : String
  createdAt : Int
  score : ℤ
  version : Option String
  snippet : String
deriving DecidableEq, Repr

structure GatherStats where
  elapsedMs : Int
  sourceCounts : List (String × Nat)
  cacheHits : Nat
  incompleteSources : Option (List String)
deriving DecidableEq, Repr

structure GatherContextResult where
  summary : String
  highlights : List String
  citations : List Citation
  snippets : List CodeSnippet
  stats : GatherStats
deriving DecidableEq, Repr

/-- Method `generateSummary`. -/
def generateSummary (results : List RankedResult) : String :=
  match results with
  | [] => "No relevant results found for your query."
  | topResult :: _ =>
    let hasAcceptedAnswer := results.any fun r => r.base.isAccepted
    let sources := dedupFirst (results.map fun r => sourceId r.base.source)
    let summary := "Found " ++ toString results.length ++
      " relevant results from " ++ String.intercalate " and " sources ++ ". "
    let summary :=
      if hasAcceptedAnswer then
        summary ++ toString (results.filter fun r => r.base.isAccepted).length ++
          " result(s) have accepted/verified solutions. "
      else summary
    let summary :=
      if topResult.finalScore > 80 then
        summary ++ "The top result \"" ++ topResult.base.title ++
          "\" appears highly relevant with a score of " ++
          toString (jsRound topResult.finalScore) ++ ". "
      else summary
    let versionsFound := dedupFirst
      ((results.filter fun r => versionTruthy r.base.version).map
        fun r => r.base.version.getD "")
    let summary :=
      if versionsFound ≠ [] then
        summary ++ "Version-specific information found for: " ++
          String.intercalate ", " versionsFound ++ ". "
      else summary
    jsTrim summary

/-- Method `extractHighlights`: up to the top 3 results with a check-mark or
bullet prefix; then up to 2 version-tagged results (the code does not check
these against the entries already pushed); then up to 2 results with final
score above 70 whose title occurs in none of the entries pushed by the first
two stages (`highlights.some(h => h.includes(r.title))` evaluated before the
high-score entries are pushed); the combined list truncated to 5. -/
def extractHighlights (results : List RankedResult) : List String :=
  let top := (results.take 3).map fun r =>
    if r.base.isAccepted then
      "✓ " ++ r.base.title ++ " (" ++ sourceId r.base.source ++ ")"
    else
      "• " ++ r.base.title ++ " (" ++ sourceId r.base.source ++ ")"
  let versionSpecific := results.filter fun r => versionTruthy r.base.version
  let verHl := (versionSpecific.take 2).map fun r =>
    "📌 Version " ++ r.base.version.getD "" ++ ": " ++ r.base.title
  let cur := top ++ verHl
  let highScore := results.filter fun r =>
    r.finalScore > 70 && !(cur.any fun h => strIncludes h r.base.title)
  let hs := (highScore.take 2).map fun r =>
    "⭐ High relevance: " ++ r.base.title
  (cur ++ hs).take 5

/-- Search for the closing fence: drop up to and past the next "```". -/
def dropToClose : List Char → Option (List Char)
  | '`' :: '`' :: '`' :: rest => some rest
  | _ :: rest => dropToClose rest
  | [] => none

/-- The replacement `content.replace(/` plus three backticks plus
`[\s\S]*?` plus three backticks plus `/g, "[code]")`: each lazily matched
fenced block becomes "[code]"; an opening fence with no closing fence later
is left verbatim (no fence pair can then match anywhere after it).  Fuel is
structural; each step consumes at least one character. -/
def stripFences : Nat → List Char → List Char
  | 0, cs => cs
  | fuel + 1, cs =>
    match cs with
    | '`' :: '`' :: '`' :: rest =>
      match dropToClose rest with
      | some rest2 => "[code]".toList ++ stripFences fuel rest2
      | none => cs
    | c :: rest => c :: stripFences fuel rest
    | [] => []

/-- Method `extractSnippet`: strip fenced code blocks, take the first
paragraph whose trimmed text exceeds 50 characters, truncate it to 200
characters with an ellipsis when something was cut; with no such paragraph,
the first 200 characters of the raw content plus an ellipsis. -/
def extractSnippet (content : String) : String :=
  let withoutCode : String :=
    ⟨stripFences (content.toList.length + 1) content.toList⟩
  let paragraphs :=
    ((splitDoubleNl withoutCode.toList).map fun cs => (⟨cs⟩ : String)).filter
      fun p => (jsTrim p).length > 50
  match paragraphs with
  | [] => jsTake 200 content ++ "..."
  | p0 :: _ =>
    let snippet := jsTake 200 p0
    snippet ++ (if snippet.length < p0.length then "..." else "")

/-- Method `createCitations`: the top 5 results reduced to citation records. -/
def createCitations (results : List RankedResult) : List Citation :=
  (results.take 5).map fun result =>
    { title := result.base.title
      url := result.base.url
      source := sourceId result.base.source
      author := result.base.author
      createdAt := result.base.createdAt
      score := jsRound result.finalScore
      version := result.base.version
      snippet := extractSnippet result.base.content }

/-- The snippet-collection loop with its `seenCode` set: keep a snippet when
its trimmed code text is unseen and its raw code is longer than 20
characters. -/
def collectSnippetsGo : List CodeSnippet → List String → List CodeSnippet
  | [], _ => []
  | s :: rest, seen =>
    let codeKey := jsTrim s.code
    if !(seen.contains codeKey) && s.code.length > 20 then
      s :: collectSnippetsGo rest (seen ++ [codeKey])
    else
      collectSnippetsGo rest seen

/-- Method `collectCodeSnippets`: all results' snippets in order through the
dedup loop, then the first 5. -/
def collectCodeSnippets (results : List RankedResult) : List CodeSnippet :=
  (collectSnippetsGo ((results.map fun r => r.base.codeSnippets).flatten) []).take 5

/-- One step of `counts[result.source] = (counts[result.source] || 0) + 1` on
an insertion-ordered record. -/
def bumpCount : List (String × Nat) → String → List (String × Nat)
  | [], k => [(k, 1)]
  | (k0, n) :: rest, k =>
    if k0 = k then (k0, n + 1) :: rest else (k0, n) :: bumpCount rest k

/-- Method `calculateSourceCounts` (over the full ranked set). -/
def calculateSourceCounts (results : List RankedResult) : List (String × Nat) :=
  results.foldl (fun counts r => bumpCount counts (sourceId r.base.source)) []

/-- Method `aggregateResults`: truncate to the top 10, derive summary,
highlights, citations and snippets from the truncated set, source counts from
the full set, and pass the stats arguments through. -/
def aggregateResults (results : List RankedResult) (elapsedMs : Int)
    (cacheHits : Nat) (incompleteSources : Option (List String)) :
    GatherContextResult :=
  let topResults := results.take 10
  { summary := generateSummary topResults
    highlights := extractHighlights topResults
    citations := createCitations topResults
    snippets := collectCodeSnippets topResults
    stats :=
      { elapsedMs := elapsedMs
        sourceCounts := calculateSourceCounts results
        cacheHits := cacheHits
        incompleteSources := incompleteSources } }

/-! Part 6: the orchestrator (gatherDeveloperContext, cache-miss path).
The three adapter fetches are external asynchronous collaborators; each
outcome is a parameter (`Except Unit` for rejected versus resolved).  A
rejected Stack Overflow or Reddit fetch is downgraded to no results by its
`.catch`, which also records the source identifier; the GitHub fetch is
wrapped in `withFallback`, which already swallows every rejection and
resolves with the `[]` fallback, so the GitHub `.catch` never runs and
"github" is never recorded.  The JS recording order depends on promise
settlement timing; the model uses source order, and only membership in the
list is asserted by the theorems below. -/

structure SearchOptions where
  query : String
  sources : Option (List Source)

def gatherDeveloperContext (e : ExecEngine) (m : Matcher) (fil : Filters)
    (opts : SearchOptions)
    (soFetch ghFetch rdFetch : Except Unit (List NormalizedResult))
    (now elapsedMs : Int) : GatherContextResult :=
  let analysis := (analyze e m initVersionState opts.query).1
  let sources := opts.sources.getD [.stackoverflow, .github, .reddit]
  let soPart : List NormalizedResult × List String :=
    if sources.contains .stackoverflow then
      match soFetch with
      | .ok rs => (rs, [])
      | .error _ => ([], ["stackoverflow"])
    else ([], [])
  let ghPart : List NormalizedResult × List String :=
    if sources.contains .github then
      match ghFetch with
      | .ok rs => (rs, [])
      | .error _ => ([], [])
    else ([], [])
  let rdPart : List NormalizedResult × List String :=
    if sources.contains .reddit then
      match rdFetch with
      | .ok rs => (rs, [])
      | .error _ => ([], ["reddit"])
    else ([], [])
  let allResults := soPart.1 ++ ghPart.1 ++ rdPart.1
  let incomplete := soPart.2 ++ ghPart.2 ++ rdPart.2
  if allResults = [] then
    { summary := "No results found. All data sources may be unavailable or the query returned no matches."
      highlights := []
      citations := []
      snippets := []
      stats :=
        { elapsedMs := elapsedMs
          sourceCounts := []
          cacheHits := 0
          incompleteSources := if incomplete ≠ [] then some incomplete else none } }
  else
    aggregateResults
      (rankResults fil (lowerStr opts.query) (some analysis.problemType) now allResults)
      elapsedMs 0
      (if incomplete ≠ [] then some incomplete else none)

/-! Part 7: claim-side restatements and concrete instances used by the
theorems below. -/

/-- Highlight extraction as claim C6 words it: top 3 results with prefixes,
then up to 2 version-tagged results that are not already listed, then up to 2
results with final score above 70 that are not already listed, truncated
to 5 ("listed" checked the way the code checks it, title occurring in an
already collected entry). -/
def claimHighlightsC6 (results : List RankedResult) : List String :=
  let top := (results.take 3).map fun r =>
    if r.base.isAccepted then
      "✓ " ++ r.base.title ++ " (" ++ sourceId r.base.source ++ ")"
    else
      "• " ++ r.base.title ++ " (" ++ sourceId r.base.source ++ ")"
  let verCand := results.filter fun r =>
    versionTruthy r.base.version && !(top.any fun h => strIncludes h r.base.title)
  let verHl := (verCand.take 2).map fun r =>
    "📌 Version " ++ r.base.version.getD "" ++ ": " ++ r.base.title
  let cur := top ++ verHl
  let hsCand := results.filter fun r =>
    r.finalScore > 70 && !(cur.any fun h => strIncludes h r.base.title)
  let hs := (hsCand.take 2).map fun r =>
    "⭐ High relevance: " ++ r.base.title
  (cur ++ hs).take 5

/-- Highlight extraction as amended: identical to the code's behaviour — the
version stage takes the first 2 version-tagged results without checking the
entries already listed (so a top-3 result with a version appears twice), and
only the high-score stage skips results whose title occurs in the list built
by the first two stages. -/
def amendedHighlights (results : List RankedResult) : List String :=
  let top := (results.take 3).map fun r =>
    if r.base.isAccepted then
      "✓ " ++ r.base.title ++ " (" ++ sourceId r.base.source ++ ")"
    else
      "• " ++ r.base.title ++ " (" ++ sourceId r.base.source ++ ")"
  let verHl := ((results.filter fun r => versionTruthy r.base.version).take 2).map
    fun r => "📌 Version " ++ r.base.version.getD "" ++ ": " ++ r.base.title
  let listed := top ++ verHl
  let hs := ((results.filter fun r =>
    r.finalScore > 70 && !(listed.any fun h => strIncludes h r.base.title)).take 2).map
    fun r => "⭐ High relevance: " ++ r.base.title
  (listed ++ hs).take 5

/-- An engine that never matches (a query without version-shaped text). -/
def engine0 : ExecEngine :=
  ⟨fun _ _ _ => none⟩

/-- A matcher on which every pattern produces no match. -/
def matcher0 : Matcher :=
  fun _ _ => []

/-- Empty configuration tables (both lookups miss). -/
def filters0 : Filters :=
  ⟨fun _ => none, fun _ _ => none⟩

/-- A plain sample result. -/
def sampleResult : NormalizedResult :=
  { title := "react hooks"
    url := "https://example.org/1"
    source := .github
    author := "a"
    createdAt := 0
    updatedAt := none
    score := 0
    content := ""
    codeSnippets := []
    tags := []
    version := none
    isAccepted := true
    voteCount := none }

/-- A result with a negative source-native score (a downvoted post). -/
def negResult : NormalizedResult :=
  { title := "t"
    url := "u"
    source := .stackoverflow
    author := "a"
    createdAt := 0
    updatedAt := none
    score := -300
    content := ""
    codeSnippets := []
    tags := []
    version := none
    isAccepted := false
    voteCount := none }

/-- A ranked result carrying a version tag, ranked in the top 3. -/
def verRanked : RankedResult :=
  { base :=
      { title := "T"
        url := "u"
        source := .github
        author := "a"
        createdAt := 0
        updatedAt := none
        score := 0
        content := ""
        codeSnippets := []
        tags := []
        version := some "1.0"
        isAccepted := false
        voteCount := none }
    relevanceScore := 0
    recencyScore := 0
    communityScore := 0
    finalScore := 0 }

/-- Options with the default source set. -/
def opts0 : SearchOptions :=
  { query := "react error", sources := none }

/-- Greatest score over a category list (proof helper for the classifier). -/
def listMaxS (s : ProblemType → Nat) (l : List ProblemType) : Nat :=
  (l.map s).foldr Nat.max 0

/-- First category of the list attaining the list's greatest score (proof
helper for the classifier). -/
def firstAttain (s : ProblemType → Nat) : List ProblemType → ProblemType
  | [] => .unknown
  | t :: rest => if s t ≥ listMaxS s rest then t else firstAttain s rest

/-! Part 8: theorems. -/

/-- Filtering by a final-score key commutes with ordered insertion: the
inserted element lands in front of the equal-keyed ones (elements passed over
have a strictly larger key). -/
theorem filterKey_orderedInsert (s : ℚ) (a : RankedResult) (l : List RankedResult) :
    (List.orderedInsert finalGe a l).filter (fun x => decide (x.finalScore = s)) =
      if a.finalScore = s then
        a :: l.filter (fun x => decide (x.finalScore = s))
      else l.filter (fun x => decide (x.finalScore = s)) := by
  induction l with
  | nil =>
    by_cases has : a.finalScore = s <;> simp [List.orderedInsert, has]
  | cons b t ih =>
    simp only [List.orderedInsert]
    by_cases hab : finalGe a b
    · rw [if_pos hab]
      by_cases has : a.finalScore = s <;> by_cases hbs : b.finalScore = s <;>
        simp [List.filter_cons, has, hbs]
    · rw [if_neg hab]
      by_cases has : a.finalScore = s
      · have hbs : ¬(b.finalScore = s) := fun h => hab (by
          unfold finalGe; rw [h, has])
        simp [List.filter_cons, hbs, has, ih]
      · by_cases hbs : b.finalScore = s <;> simp [List.filter_cons, hbs, has, ih]

/-- Insertion sort is stable: filtering by any final-score key returns the
original relative order of the equal-keyed elements. -/
theorem filterKey_insertionSort (s : ℚ) (l : List RankedResult) :
    (List.insertionSort finalGe l).filter (fun x => decide (x.finalScore = s)) =
      l.filter (fun x => decide (x.finalScore = s)) := by
  induction l with
  | nil => rfl
  | cons a t ih =>
    simp only [List.insertionSort]
    rw [filterKey_orderedInsert]
    by_cases has : a.finalScore = s <;> simp [List.filter_cons, has, ih]

/-- C1: for every non-empty input, `rankResults` returns a permutation of the
input (same count and identities, the scored records being exactly the mapped
inputs), sorted in non-increasing final-score order, and stable: for every
final-score value, the equal-scored records keep the original relative
order. -/
theorem rankResults_perm_sorted_stable (fil : Filters) (q : String)
    (problemType : Option ProblemType) (now : Int)
    (results : List NormalizedResult) (hne : results ≠ []) :
    (rankResults fil q problemType now results).Perm
        (results.map (scoreResult fil q problemType now)) ∧
    ((rankResults fil q problemType now results).map RankedResult.base).Perm results ∧
    (rankResults fil q problemType now results).Sorted finalGe ∧
    ∀ s : ℚ,
      (rankResults fil q problemType now results).filter
          (fun x => decide (x.finalScore = s)) =
        (results.map (scoreResult fil q problemType now)).filter
          (fun x => decide (x.finalScore = s)) := by
  refine ⟨List.perm_insertionSort _ _, ?_, List.sorted_insertionSort _ _,
    fun s => filterKey_insertionSort s _⟩
  have h := (List.perm_insertionSort finalGe
    (results.map (scoreResult fil q problemType now))).map RankedResult.base
  rw [List.map_map] at h
  have hco : RankedResult.base ∘ scoreResult fil q problemType now = id := rfl
  rw [hco, List.map_id] at h
  exact h

/-- Closed instance of the hypothesis of `rankResults_perm_sorted_stable` and
of its permutation conclusion. -/
theorem rankResults_perm_sorted_stable_witness :
    ([sampleResult] ≠ []) ∧
    ((rankResults filters0 "react" none 0 [sampleResult]).map
      RankedResult.base).Perm [sampleResult] :=
  have hne : ([sampleResult] : List NormalizedResult) ≠ [] := by simp
  ⟨hne, (rankResults_perm_sorted_stable filters0 "react" none 0 [sampleResult] hne).2.1⟩

/-- C2: every ranked record's final score is
relevance × Wr + recency × Wrec + community × Wc + acceptedBonus +
sourceAffinity × 0.05, with (Wr, Wrec, Wc) = (0.35, 0.25, 0.20) unless the
category weight table has an entry for the category, and acceptedBonus 0 when
not accepted, 20 for configuration and best-practice, 15 for bug reports and
12 otherwise (also with no known category). -/
theorem rankResults_finalScore_formula (fil : Filters) (q : String)
    (problemType : Option ProblemType) (now : Int)
    (results : List NormalizedResult) (r : RankedResult)
    (hmem : r ∈ rankResults fil q problemType now results) :
    r.finalScore =
      r.relevanceScore * (match problemType with
        | some t => ((fil.problemTypeWeights t).getD ⟨35/100, 25/100, 20/100⟩).relevance
        | none => 35/100) +
      r.recencyScore * (match problemType with
        | some t => ((fil.problemTypeWeights t).getD ⟨35/100, 25/100, 20/100⟩).recency
        | none => 25/100) +
      r.communityScore * (match problemType with
        | some t => ((fil.problemTypeWeights t).getD ⟨35/100, 25/100, 20/100⟩).community
        | none => 20/100) +
      (if r.base.isAccepted then
        if problemType = some .configuration ∨ problemType = some .practice then (20 : ℚ)
        else if problemType = some .bug then 15
        else 12
       else 0) +
      calculateSourceScore fil q problemType r.base * (5/100) := by
  unfold rankResults at hmem
  rw [List.mem_insertionSort] at hmem
  obtain ⟨x, _, rfl⟩ := List.mem_map.mp hmem
  cases problemType with
  | none =>
    cases hacc : x.isAccepted <;>
      simp [scoreResult, getScoreWeights, getAcceptedBonus, hacc]
  | some t =>
    rcases hw : fil.problemTypeWeights t with _ | w <;>
      cases hacc : x.isAccepted <;>
        cases t <;>
          simp [scoreResult, getScoreWeights, getAcceptedBonus, hacc, hw]

/-- Closed instance of `rankResults_finalScore_formula` at a singleton input
with no category and empty weight tables. -/
theorem rankResults_finalScore_formula_witness :
    (scoreResult filters0 "react" none 0 sampleResult ∈
        rankResults filters0 "react" none 0 [sampleResult]) ∧
    (scoreResult filters0 "react" none 0 sampleResult).finalScore =
      (scoreResult filters0 "react" none 0 sampleResult).relevanceScore * (35/100) +
      (scoreResult filters0 "react" none 0 sampleResult).recencyScore * (25/100) +
      (scoreResult filters0 "react" none 0 sampleResult).communityScore * (20/100) +
      12 +
      calculateSourceScore filters0 "react" none sampleResult * (5/100) :=
  have hm : scoreResult filters0 "react" none 0 sampleResult ∈
      rankResults filters0 "react" none 0 [sampleResult] :=
    List.mem_singleton_self _
  ⟨hm, rankResults_finalScore_formula filters0 "react" none 0 [sampleResult] _ hm⟩

/-- C9: every input record reappears in the ranked output with all thirteen
original fields unchanged, the record being exactly the input extended with
the four score fields. -/
theorem rankResults_preserves_fields (fil : Filters) (q : String)
    (problemType : Option ProblemType) (now : Int)
    (results : List NormalizedResult) (r : NormalizedResult) (hr : r ∈ results) :
    ∃ rr ∈ rankResults fil q problemType now results,
      rr.base.title = r.title ∧ rr.base.url = r.url ∧ rr.base.source = r.source ∧
      rr.base.author = r.author ∧ rr.base.createdAt = r.createdAt ∧
      rr.base.updatedAt = r.updatedAt ∧ rr.base.score = r.score ∧
      rr.base.content = r.content ∧ rr.base.codeSnippets = r.codeSnippets ∧
      rr.base.tags = r.tags ∧ rr.base.version = r.version ∧
      rr.base.isAccepted = r.isAccepted ∧ rr.base.voteCount = r.voteCount ∧
      rr = scoreResult fil q problemType now r := by
  refine ⟨scoreResult fil q problemType now r, ?_,
    rfl, rfl, rfl, rfl, rfl, rfl, rfl, rfl, rfl, rfl, rfl, rfl, rfl, rfl⟩
  rw [rankResults, List.mem_insertionSort]
  exact List.mem_map_of_mem _ hr

/-- Closed instance of the hypothesis of `rankResults_preserves_fields` and
its conclusion at a singleton input. -/
theorem rankResults_preserves_fields_witness :
    (sampleResult ∈ [sampleResult]) ∧
    ∃ rr ∈ rankResults filters0 "react" none 0 [sampleResult],
      rr.base.title = sampleResult.title ∧ rr.base.url = sampleResult.url ∧
      rr.base.source = sampleResult.source ∧
      rr.base.author = sampleResult.author ∧
      rr.base.createdAt = sampleResult.createdAt ∧
      rr.base.updatedAt = sampleResult.updatedAt ∧
      rr.base.score = sampleResult.score ∧
      rr.base.content = sampleResult.content ∧
      rr.base.codeSnippets = sampleResult.codeSnippets ∧
      rr.base.tags = sampleResult.tags ∧ rr.base.version = sampleResult.version ∧
      rr.base.isAccepted = sampleResult.isAccepted ∧
      rr.base.voteCount = sampleResult.voteCount ∧
      rr = scoreResult filters0 "react" none 0 sampleResult :=
  have hr : sampleResult ∈ [sampleResult] := List.mem_singleton_self _
  ⟨hr, rankResults_preserves_fields filters0 "react" none 0 [sampleResult]
    sampleResult hr⟩

/-- C10: aggregating an empty ranked list yields the fixed no-result summary,
empty highlights, citations, snippets and source counts, and passes the three
stats arguments through unchanged. -/
theorem aggregateResults_empty (elapsedMs : Int) (cacheHits : Nat)
    (incompleteSources : Option (List String)) :
    aggregateResults [] elapsedMs cacheHits incompleteSources =
      { summary := "No relevant results found for your query."
        highlights := []
        citations := []
        snippets := []
        stats :=
          { elapsedMs := elapsedMs
            sourceCounts := []
            cacheHits := cacheHits
            incompleteSources := incompleteSources } } := rfl

/-- Unfolding of the greatest score over a cons cell. -/
theorem listMaxS_cons (s : ProblemType → Nat) (t : ProblemType)
    (l : List ProblemType) :
    listMaxS s (t :: l) = Nat.max (s t) (listMaxS s l) := rfl

/-- The selection fold's running score is the maximum of the accumulator's
score and the list's greatest score. -/
theorem selectFold_snd (s : ProblemType → Nat) :
    ∀ (l : List ProblemType) (acc : ProblemType × Nat),
      (List.foldl (fun acc t => if s t > acc.2 then (t, s t) else acc) acc l).2 =
        Nat.max acc.2 (listMaxS s l) := by
  intro l
  induction l with
  | nil => intro acc; simp [listMaxS]
  | cons t rest ih =>
    intro acc
    simp only [List.foldl_cons]
    rw [ih, listMaxS_cons]
    by_cases h : s t > acc.2
    · rw [if_pos h]
      have hp : ((t, s t) : ProblemType × Nat).2 = s t := rfl
      rw [hp]
      simp only [Nat.max_def]
      split_ifs <;> omega
    · rw [if_neg h]
      simp only [Nat.max_def]
      split_ifs <;> omega

/-- The selection fold keeps its accumulator when no list score beats it. -/
theorem selectFold_const (s : ProblemType → Nat) :
    ∀ (l : List ProblemType) (acc : ProblemType × Nat), listMaxS s l ≤ acc.2 →
      List.foldl (fun acc t => if s t > acc.2 then (t, s t) else acc) acc l = acc := by
  intro l
  induction l with
  | nil => intro acc _; rfl
  | cons t rest ih =>
    intro acc h
    rw [listMaxS_cons] at h
    have h1 : s t ≤ acc.2 := le_trans (Nat.le_max_left _ _) h
    have h2 : listMaxS s rest ≤ acc.2 := le_trans (Nat.le_max_right _ _) h
    simp only [List.foldl_cons]
    rw [if_neg (by omega)]
    exact ih acc h2

/-- The greater argument is the value of `Nat.max`. -/
theorem natMax_left {a b : ℕ} (h : b ≤ a) : Nat.max a b = a := by
  simp only [Nat.max_def]; split_ifs <;> omega

/-- The greater argument is the value of `Nat.max`, right version. -/
theorem natMax_right {a b : ℕ} (h : a ≤ b) : Nat.max a b = b := by
  simp only [Nat.max_def]; split_ifs <;> omega

/-- When some list score beats the accumulator, the selection fold returns
the first category attaining the list's greatest score, with that score. -/
theorem selectFold_first (s : ProblemType → Nat) :
    ∀ (l : List ProblemType) (acc : ProblemType × Nat), acc.2 < listMaxS s l →
      List.foldl (fun acc t => if s t > acc.2 then (t, s t) else acc) acc l =
        (firstAttain s l, listMaxS s l) := by
  intro l
  induction l with
  | nil => intro acc h; simp [listMaxS] at h
  | cons t rest ih =>
    intro acc h
    rw [listMaxS_cons] at h
    simp only [List.foldl_cons]
    by_cases h1 : listMaxS s rest ≤ s t
    · rw [natMax_left h1] at h
      rw [if_pos h]
      rw [selectFold_const s rest (t, s t)
        (show listMaxS s rest ≤ ((t, s t) : ProblemType × Nat).2 from h1)]
      rw [listMaxS_cons, firstAttain, if_pos h1, natMax_left h1]
    · push_neg at h1
      have hfa : firstAttain s (t :: rest) = firstAttain s rest := by
        rw [firstAttain, if_neg (not_le.mpr h1)]
      have hmx : listMaxS s (t :: rest) = listMaxS s rest := by
        rw [listMaxS_cons]; exact natMax_right (le_of_lt h1)
      rw [hfa, hmx]
      by_cases hgt : s t > acc.2
      · rw [if_pos hgt]
        exact ih (t, s t) (show ((t, s t) : ProblemType × Nat).2 < listMaxS s rest from h1)
      · rw [if_neg hgt]
        exact ih acc (lt_of_lt_of_le h (le_of_eq (natMax_right (le_of_lt h1))))

set_option maxHeartbeats 1000000 in
/-- C3: the classifier scores each category by the total match count of its
pattern list, applies the +2 performance and +1 configuration boosts, and
returns the category with the strictly highest score — `unknown` when the
highest score is 0, ties at a non-zero highest score resolving to the
category first in enumeration order. -/
theorem classifyProblemType_eq_spec (m : Matcher) (query : String) :
    classifyProblemType m query = classifyProblemTypeSpec m query := by
  simp only [classifyProblemType, classifyProblemTypeSpec]
  generalize boostedProblemScore m query = s
  unfold selectBestType
  have hh : highestProblemScore s = listMaxS s problemTypeOrder := rfl
  rw [hh]
  by_cases h0 : listMaxS s problemTypeOrder = 0
  · rw [selectFold_const s problemTypeOrder _
      (show listMaxS s problemTypeOrder ≤ ((ProblemType.unknown, 0) : ProblemType × Nat).2 by omega)]
    simp [h0]
  · rw [selectFold_first s problemTypeOrder _
      (show ((ProblemType.unknown, 0) : ProblemType × Nat).2 < listMaxS s problemTypeOrder from
        Nat.pos_of_ne_zero h0)]
    rw [if_pos (show ((firstAttain s problemTypeOrder, listMaxS s problemTypeOrder) :
        ProblemType × Nat).2 > 0 from Nat.pos_of_ne_zero h0)]
    rw [if_neg h0]
    show firstAttain s problemTypeOrder = _
    simp only [problemTypeOrder, firstAttain, listMaxS, List.map_cons,
      List.map_nil, List.foldr_cons, List.foldr_nil] at h0 ⊢
    set n1 := s ProblemType.configuration with hn1
    set n2 := s ProblemType.bug with hn2
    set n3 := s ProblemType.performance with hn3
    set n4 := s ProblemType.compatibility with hn4
    set n5 := s ProblemType.practice with hn5
    set m1 := Nat.max n5 0 with hm1
    set m2 := Nat.max n4 m1 with hm2
    set m3 := Nat.max n3 m2 with hm3
    set m4 := Nat.max n2 m3 with hm4
    set m5 := Nat.max n1 m4 with hm5
    by_cases c1 : n1 ≥ m4
    · have e5 : m5 = n1 := by rw [hm5]; exact natMax_left c1
      rw [if_pos c1, if_pos (by omega : n1 = m5)]
    · have hlt1 : n1 < m4 := not_le.mp c1
      have e5 : m5 = m4 := by rw [hm5]; exact natMax_right (le_of_lt hlt1)
      rw [if_neg c1, if_neg (by omega : ¬(n1 = m5))]
      by_cases c2 : n2 ≥ m3
      · have e4 : m4 = n2 := by rw [hm4]; exact natMax_left c2
        rw [if_pos c2, if_pos (by omega : n2 = m5)]
      · have hlt2 : n2 < m3 := not_le.mp c2
        have e4 : m4 = m3 := by rw [hm4]; exact natMax_right (le_of_lt hlt2)
        rw [if_neg c2, if_neg (by omega : ¬(n2 = m5))]
        by_cases c3 : n3 ≥ m2
        · have e3 : m3 = n3 := by rw [hm3]; exact natMax_left c3
          rw [if_pos c3, if_pos (by omega : n3 = m5)]
        · have hlt3 : n3 < m2 := not_le.mp c3
          have e3 : m3 = m2 := by rw [hm3]; exact natMax_right (le_of_lt hlt3)
          rw [if_neg c3, if_neg (by omega : ¬(n3 = m5))]
          by_cases c4 : n4 ≥ m1
          · have e2 : m2 = n4 := by rw [hm2]; exact natMax_left c4
            rw [if_pos c4, if_pos (by omega : n4 = m5)]
          · have hlt4 : n4 < m1 := not_le.mp c4
            have e2 : m2 = m1 := by rw [hm2]; exact natMax_right (le_of_lt hlt4)
            rw [if_neg c4, if_neg (by omega : ¬(n4 = m5))]
            rw [if_pos (Nat.zero_le n5)]

/-- Invariant of the snippet-collection loop: collected snippets carry keys
outside the seen set and are pairwise distinct by trimmed code text. -/
theorem collectSnippetsGo_keys (l : List CodeSnippet) :
    ∀ seen : List String,
      (∀ x ∈ collectSnippetsGo l seen, jsTrim x.code ∉ seen) ∧
      (collectSnippetsGo l seen).Pairwise
        (fun a b => jsTrim a.code ≠ jsTrim b.code) := by
  induction l with
  | nil => intro seen; simp [collectSnippetsGo]
  | cons s rest ih =>
    intro seen
    simp only [collectSnippetsGo]
    split
    · next hcond =>
      simp only [Bool.and_eq_true, Bool.not_eq_true'] at hcond
      constructor
      · intro x hx
        rcases List.mem_cons.mp hx with rfl | hx
        · intro hmem
          have : seen.contains (jsTrim x.code) = true :=
            List.elem_eq_true_of_mem hmem
          rw [this] at hcond
          exact Bool.noConfusion hcond.1
        · have h2 := (ih (seen ++ [jsTrim s.code])).1 x hx
          intro hmem; exact h2 (List.mem_append_left _ hmem)
      · refine List.Pairwise.cons ?_ (ih _).2
        intro b hb heq
        have h2 := (ih (seen ++ [jsTrim s.code])).1 b hb
        exact h2 (heq ▸ List.mem_append_right _ (List.mem_singleton_self _))
    · exact ⟨(ih seen).1, (ih seen).2⟩

/-- C4: the aggregate never carries more than 5 citations, 5 code snippets or
5 highlights, and its snippets are pairwise distinct by trimmed code text, so
an identical code block carried by two results appears only once. -/
theorem aggregateResults_bounded_dedup (results : List RankedResult)
    (elapsedMs : Int) (cacheHits : Nat) (incompleteSources : Option (List String)) :
    (aggregateResults results elapsedMs cacheHits incompleteSources).citations.length ≤ 5 ∧
    (aggregateResults results elapsedMs cacheHits incompleteSources).snippets.length ≤ 5 ∧
    (aggregateResults results elapsedMs cacheHits incompleteSources).highlights.length ≤ 5 ∧
    (aggregateResults results elapsedMs cacheHits incompleteSources).snippets.Pairwise
      (fun a b => jsTrim a.code ≠ jsTrim b.code) := by
  refine ⟨?_, ?_, ?_, ?_⟩
  · simp only [aggregateResults, createCitations, List.length_map, List.length_take]
    omega
  · simp only [aggregateResults, collectCodeSnippets, List.length_take]
    omega
  · simp only [aggregateResults, extractHighlights, List.length_take]
    omega
  · simp only [aggregateResults, collectCodeSnippets]
    exact ((collectSnippetsGo_keys _ _).2).sublist (List.take_sublist _ _)

/-- C5: with every source enabled and every fetch rejected, the orchestrator
still returns a well-formed bundle — no-results summary, empty highlights,
citations and snippets — but `stats.incompleteSources` records only
"stackoverflow" and "reddit": the GitHub rejection is swallowed by
`withFallback` before the catch that would record "github", so the claim's
"every failed source" is violated at this input. -/
theorem gatherDeveloperContext_allFail :
    (gatherDeveloperContext engine0 matcher0 filters0 opts0
        (Except.error ()) (Except.error ()) (Except.error ()) 0 0).summary =
      "No results found. All data sources may be unavailable or the query returned no matches." ∧
    (gatherDeveloperContext engine0 matcher0 filters0 opts0
        (Except.error ()) (Except.error ()) (Except.error ()) 0 0).highlights = [] ∧
    (gatherDeveloperContext engine0 matcher0 filters0 opts0
        (Except.error ()) (Except.error ()) (Except.error ()) 0 0).citations = [] ∧
    (gatherDeveloperContext engine0 matcher0 filters0 opts0
        (Except.error ()) (Except.error ()) (Except.error ()) 0 0).snippets = [] ∧
    (gatherDeveloperContext engine0 matcher0 filters0 opts0
        (Except.error ()) (Except.error ()) (Except.error ()) 0 0).stats.incompleteSources =
      some ["stackoverflow", "reddit"] ∧
    "github" ∉ ((gatherDeveloperContext engine0 matcher0 filters0 opts0
        (Except.error ()) (Except.error ()) (Except.error ()) 0 0).stats.incompleteSources.getD []) := by
  refine ⟨rfl, rfl, rfl, rfl, rfl, ?_⟩
  decide

/-- C6 counterexample: a top-3 result carrying a version tag is listed twice
by the code (bullet entry and version entry with the same title), while the
claim's procedure, which skips already-listed results at the version stage,
lists it once. -/
theorem extractHighlights_counterexample :
    extractHighlights [verRanked] ≠ claimHighlightsC6 [verRanked] := by
  decide

/-- C6 amended: the highlight list is the top 3 results with check-mark or
bullet prefixes, then up to 2 version-tagged results taken without any
already-listed check (duplicate titles possible), then up to 2 results with
final score above 70 whose title occurs in none of the entries built by the
first two stages, truncated to 5 entries. -/
theorem extractHighlights_amended_eq (results : List RankedResult) :
    extractHighlights results = amendedHighlights results := rfl

/-- C7 counterexample: on a result with source-native score -300 (and no
votes) the community score is -150, outside the 0–100 range the claim
asserts for every result. -/
theorem calculateCommunityScore_counterexample :
    ¬(0 ≤ calculateCommunityScore negResult ∧
      calculateCommunityScore negResult ≤ 100) := by
  have h : calculateCommunityScore negResult = -150 := by
    simp only [calculateCommunityScore, negResult]
    norm_num [min_def]
  rw [h]
  norm_num

/-- C7 amended: the community score is
min(voteCount, 50) + min(score / 2, 25) + (25 if accepted), capped at 100,
and it lies within 0–100 whenever the vote count and the source-native score
are non-negative (the cap bounds it above unconditionally). -/
theorem calculateCommunityScore_amended (r : NormalizedResult)
    (hv : 0 ≤ r.voteCount.getD 0) (hs : 0 ≤ r.score) :
    calculateCommunityScore r =
      min (min (r.voteCount.getD 0) 50 + min (r.score / 2) 25 +
        (if r.isAccepted then (25 : ℚ) else 0)) 100 ∧
    0 ≤ calculateCommunityScore r ∧ calculateCommunityScore r ≤ 100 := by
  refine ⟨rfl, ?_, ?_⟩
  · have h1 : (0:ℚ) ≤ min (r.voteCount.getD 0) 50 := le_min hv (by norm_num)
    have h2 : (0:ℚ) ≤ min (r.score / 2) 25 :=
      le_min (div_nonneg hs (by norm_num)) (by norm_num)
    have h3 : (0:ℚ) ≤ (if r.isAccepted then (25 : ℚ) else 0) := by
      split <;> norm_num
    show (0:ℚ) ≤ min (min (r.voteCount.getD 0) 50 + min (r.score / 2) 25 +
      (if r.isAccepted then (25 : ℚ) else 0)) 100
    exact le_min (add_nonneg (add_nonneg h1 h2) h3) (by norm_num)
  · show min (min (r.voteCount.getD 0) 50 + min (r.score / 2) 25 +
      (if r.isAccepted then (25 : ℚ) else 0)) 100 ≤ (100:ℚ)
    exact min_le_right _ _

/-- Closed instance of the hypotheses of `calculateCommunityScore_amended`
and of its conclusion. -/
theorem calculateCommunityScore_amended_witness :
    ((0:ℚ) ≤ sampleResult.voteCount.getD 0 ∧ (0:ℚ) ≤ sampleResult.score) ∧
    (calculateCommunityScore sampleResult =
      min (min (sampleResult.voteCount.getD 0) 50 + min (sampleResult.score / 2) 25 +
        (if sampleResult.isAccepted then (25 : ℚ) else 0)) 100 ∧
    0 ≤ calculateCommunityScore sampleResult ∧
    calculateCommunityScore sampleResult ≤ 100) :=
  have hv : (0:ℚ) ≤ sampleResult.voteCount.getD 0 := by simp [sampleResult]
  have hs : (0:ℚ) ≤ sampleResult.score := by simp [sampleResult]
  ⟨⟨hv, hs⟩, calculateCommunityScore_amended sampleResult hv hs⟩

/-- For a valid engine, the exec loop always terminates through its failed
match, which resets the `lastIndex` to 0 (fuel beyond the string length never
runs out, every match moving the index strictly forward within the string). -/
theorem execLoop_resets (e : ExecEngine) (q : String) (i : Nat)
    (hE : ValidEngine e q) :
    ∀ (fuel li : Nat) (acc : List String), li ≤ q.length → q.length < li + fuel →
      (execLoop e i q fuel li acc).2 = 0 := by
  intro fuel
  induction fuel with
  | zero => intro li acc h1 h2; omega
  | succ fuel ih =>
    intro li acc h1 h2
    cases hf : e.findFrom i q li with
    | none => simp only [execLoop, hf]
    | some v =>
      obtain ⟨st, t, cap⟩ := v
      obtain ⟨hv1, hv2, hv3⟩ := hE i li st t cap hf
      simp only [execLoop, hf]
      exact ih t (cap :: acc) (by omega) (by omega)

/-- Running every version pattern from the fresh all-zero state leaves the
state all-zero again. -/
theorem runVersionPatterns_resets (e : ExecEngine) (q : String)
    (hE : ValidEngine e q) :
    ∀ (n i : Nat),
      (runVersionPatterns e q (List.replicate n 0) i).2 = List.replicate n 0 := by
  intro n
  induction n with
  | zero => intro i; rfl
  | succ n ih =>
    intro i
    simp only [List.replicate_succ, runVersionPatterns]
    rw [execLoop_resets e q i hE (q.length + 1) 0 [] (Nat.zero_le _) (by omega)]
    rw [ih (i + 1)]

/-- One `analyze` call from the fresh state hands the fresh state back. -/
theorem analyze_state_init (e : ExecEngine) (m : Matcher) (q : String)
    (hE : ValidEngine e q) :
    (analyze e m initVersionState q).2 = initVersionState := by
  simp only [analyze, extractVersions, initVersionState, numVersionPatterns]
  exact runVersionPatterns_resets e q hE 5 0

/-- C8: `analyze` is idempotent — two calls on the same query string from the
analyzer's fresh state produce the same `QueryAnalysis` (category,
technologies, versions, error patterns, specificity and search strategies)
and the same analyzer state: the only mutable state, the version patterns'
`lastIndex`, is reset by the end of each call. -/
theorem analyze_idempotent (e : ExecEngine) (m : Matcher) (query : String)
    (hE : ValidEngine e query) :
    (analyze e m (analyze e m initVersionState query).2 query).1 =
      (analyze e m initVersionState query).1 ∧
    (analyze e m (analyze e m initVersionState query).2 query).2 =
      (analyze e m initVersionState query).2 := by
  have h := analyze_state_init e m query hE
  rw [h]
  exact ⟨rfl, h⟩

/-- Closed instance of the hypothesis of `analyze_idempotent` and of its
conclusion. -/
theorem analyze_idempotent_witness :
    ValidEngine engine0 "react error" ∧
    ((analyze engine0 matcher0
        (analyze engine0 matcher0 initVersionState "react error").2 "react error").1 =
      (analyze engine0 matcher0 initVersionState "react error").1 ∧
    (analyze engine0 matcher0
        (analyze engine0 matcher0 initVersionState "react error").2 "react error").2 =
      (analyze engine0 matcher0 initVersionState "react error").2) :=
  have hv : ValidEngine engine0 "react error" := by
    intro i li st t cap h
    simp [engine0] at h
  ⟨hv, analyze_idempotent engine0 matcher0 "react error" hv⟩
